import Mathlib

/-!
Verification of the reddit-radar lead pipeline and approval state machine.

This file gives a shallow embedding, in Lean 4, of the pure/state-passing
content of the repository's Python sources:

* `src/classifier.py` — intent classification (AI path with clamping, and the
  deterministic rule-based fallback),
* `src/scanner.py` — relevance scoring, per-category filtering and
  deduplication, and the draft-persistence step of the orchestrator,
* `src/draft_store.py` — the SQLite draft table modelled as a list of rows
  with the store operations as explicit state-passing functions,
* `src/approval_bot.py` — the Telegram approval workflow handlers, with
  outbound Reddit calls reified as data so that "the posting capability was
  invoked" is observable.

Machine-level details that do not affect the verified claims (logging, the
Telegram transport, SQLite itself) are elided; every modelled function mirrors
the control flow of its Python counterpart statement by statement.  Reals are
modelled by `ℚ` (the Python floats involved are exact decimals), timestamps by
`ℕ`, and Python string operations by executable Lean counterparts defined
below.
-/

namespace RedditRadar

/-- Python's substring test `needle in hay` on lists of characters. -/
def listIn (needle : List Char) : List Char → Bool
  | [] => needle.isEmpty
  | c :: rest => needle.isPrefixOf (c :: rest) || listIn needle rest

/-- Python's substring test `needle in hay` on strings. -/
def strIn (needle hay : String) : Bool :=
  listIn needle.data hay.data

/-- Python's `str.lower()` (the inputs involved are ASCII). -/
def pyLower (s : String) : String :=
  ⟨s.data.map Char.toLower⟩

/-- Python's `str.strip()`: whitespace removed from both ends. -/
def pyStrip (s : String) : String :=
  ⟨((s.data.dropWhile Char.isWhitespace).reverse.dropWhile Char.isWhitespace).reverse⟩

/-- Split a character list at the first colon, `none` when no colon occurs. -/
def splitColonAux : List Char → Option (List Char × List Char)
  | [] => none
  | c :: rest =>
    if c = ':' then some ([], rest)
    else
      match splitColonAux rest with
      | some (a, b) => some (c :: a, b)
      | none => none

/-- Python's `data.split(":", 1)` guarded by `":" in data`: the action name
and the remainder of the callback payload. -/
def splitAction (data : String) : Option (String × String) :=
  match splitColonAux data.data with
  | some (a, b) => some (⟨a⟩, ⟨b⟩)
  | none => none

/-- A Reddit post dict as produced by `RedditClient.search_posts`
(`src/reddit_client.py`): the fields the pipeline consumes.  A missing
`selftext` (Python `None`) is modelled as the empty string, matching the
`post.get('selftext', '') or ''` normalisation in `classifier.py`. -/
structure PostRec where
  id : String
  title : String
  selftext : String
  subreddit : String
  score : ℤ
  numComments : ℤ
  url : String
deriving DecidableEq, Repr

/-- The intent label set of `classifier.py` (`class Intent`). -/
inductive Intent
  | hotLead
  | competitor
  | contentIdea
  | partnership
  | noise
deriving DecidableEq, Repr

/-- A classification result (`class Classification` in `classifier.py`). -/
structure Classification where
  intent : Intent
  confidence : ℚ
  reasoning : String
  rawResponse : Option String := none
deriving DecidableEq, Repr

/-- `hot_lead_signals` from `Classifier._rule_based_classify`. -/
def hotLeadSignals : List String :=
  ["looking for", "need help", "recommendations", "suggest",
   "what tool", "which software", "any alternatives", "best way to",
   "how do you handle", "what do you use for"]

/-- `competitor_signals` from `Classifier._rule_based_classify`. -/
def competitorSignals : List String :=
  ["i built", "we built", "i made", "we made", "launched",
   "introducing", "check out", "i created", "my project",
   "show hn", "side project"]

/-- `partnership_signals` from `Classifier._rule_based_classify`. -/
def partnershipSignals : List String :=
  ["hiring", "looking for developer", "need contractor",
   "seeking partner", "looking for agency", "freelancer needed"]

/-- `content_signals` from `Classifier._rule_based_classify`. -/
def contentSignals : List String :=
  ["how do i", "how to", "why does", "explain", "what is",
   "eli5", "help me understand", "what's the difference"]

/-- `Classifier._rule_based_classify` (`classifier.py`): lower-case the title
and body, join them with a space, and test the four signal lists in order,
first match winning, with the fixed fallback confidences of the source. -/
def ruleBasedClassify (post : PostRec) : Classification :=
  let title := pyLower post.title
  let content := pyLower post.selftext
  let text := title ++ " " ++ content
  if hotLeadSignals.any (fun s => strIn s text) then
    { intent := Intent.hotLead, confidence := 0.6,
      reasoning := "Matched hot lead keywords (rule-based)" }
  else if partnershipSignals.any (fun s => strIn s text) then
    { intent := Intent.partnership, confidence := 0.6,
      reasoning := "Matched partnership keywords (rule-based)" }
  else if competitorSignals.any (fun s => strIn s text) then
    { intent := Intent.competitor, confidence := 0.6,
      reasoning := "Matched competitor keywords (rule-based)" }
  else if contentSignals.any (fun s => strIn s text) then
    { intent := Intent.contentIdea, confidence := 0.5,
      reasoning := "Matched content idea keywords (rule-based)" }
  else
    { intent := Intent.noise, confidence := 0.4,
      reasoning := "No strong signals detected (rule-based)" }

/-- The observable outcome of the upstream AI call in
`Classifier._ai_classify`: the provider call raised, the JSON reply failed to
parse (or held a malformed field), or it parsed to an intent, a numeric
confidence (possibly out of range) and a reasoning string. -/
inductive AiOutcome
  | callFailed
  | parseFailed
  | parsed (intent : Intent) (confidence : ℚ) (reasoning : String) (raw : String)
deriving DecidableEq, Repr

/-- `Classifier._ai_classify` (`classifier.py`) after the provider call: a
parsed reply is clamped with `min(max(confidence, 0.0), 1.0)`; a parse
failure falls back to `_rule_based_classify`. -/
def aiClassify (post : PostRec) (outcome : AiOutcome) : Classification :=
  match outcome with
  | AiOutcome.parsed intent confidence reasoning raw =>
    { intent := intent, confidence := min (max confidence 0) 1,
      reasoning := reasoning, rawResponse := some raw }
  | AiOutcome.parseFailed => ruleBasedClassify post
  | AiOutcome.callFailed => ruleBasedClassify post

/-- `Classifier.classify` (`classifier.py`): the rule-based path when no AI
credential is available, otherwise the AI path with rule-based fallback on any
exception (a raised call is the `callFailed` outcome). -/
def classify (available : Bool) (outcome : AiOutcome) (post : PostRec) : Classification :=
  if available then aiClassify post outcome else ruleBasedClassify post

/-- The slice of the keywords configuration that `score_post` reads:
`subreddit_preferences`, flattened to the per-community `priority_boost`
value (`config.get('subreddit_preferences', {}).get(sub, {}).get('priority_boost', 1.0)`). -/
structure Config where
  subredditPrefs : List (String × ℚ)
deriving DecidableEq, Repr

/-- `score_post` (`scanner.py`): base engagement, subreddit priority boost
defaulting to `1.0`, and the intent boost reassigned only for hot leads,
partnerships and content ideas. -/
def scorePost (post : PostRec) (config : Config) (classification : Option Classification) : ℚ :=
  let baseScore : ℚ := (post.score : ℚ) + (post.numComments : ℚ) * 2
  let priorityBoost : ℚ := ((config.subredditPrefs.lookup post.subreddit).getD 1.0)
  let intentBoost : ℚ :=
    match classification with
    | some c =>
      match c.intent with
      | Intent.hotLead => 2.0 * c.confidence
      | Intent.partnership => 1.5 * c.confidence
      | Intent.contentIdea => 1.2 * c.confidence
      | _ => 1.0
    | none => 1.0
  baseScore * priorityBoost * intentBoost

/-- Spec-side restatement of §4.3: `source_priority_boost` defaults to 1.0
when the community is not configured. -/
def sourcePriorityBoostSpec (config : Config) (community : String) : ℚ :=
  match config.subredditPrefs.lookup community with
  | some boost => boost
  | none => 1

/-- Spec-side restatement of §4.3: the intent boost is `2.0 × confidence` for
hot-lead, `1.5 × confidence` for partnership, `1.2 × confidence` for
content-idea, and exactly `1.0` for competitor, noise, or no classification. -/
def intentBoostSpec (classification : Option Classification) : ℚ :=
  match classification with
  | none => 1
  | some c =>
    match c.intent with
    | Intent.hotLead => 2 * c.confidence
    | Intent.partnership => (3 / 2) * c.confidence
    | Intent.contentIdea => (6 / 5) * c.confidence
    | Intent.competitor => 1
    | Intent.noise => 1

/-- Spec-side restatement of §4.2's fallback table: the signal lists checked
in the fixed priority order hot-lead, partnership, competitor, content-idea,
each with its fixed confidence. -/
def ruleOrder : List (List String × Intent × ℚ) :=
  [(hotLeadSignals, Intent.hotLead, 0.6),
   (partnershipSignals, Intent.partnership, 0.6),
   (competitorSignals, Intent.competitor, 0.6),
   (contentSignals, Intent.contentIdea, 0.5)]

/-- Spec-side restatement of §4.2's fallback rule: first matching category in
`ruleOrder` wins; no match yields noise at confidence 0.4. -/
def firstRuleMatch (text : String) : Intent × ℚ :=
  match ruleOrder.find? (fun rule => rule.1.any (fun s => strIn s text)) with
  | some rule => rule.2
  | none => (Intent.noise, 0.4)

/-- The scenario post of §8: `{title:"Looking for a tool to manage invoices"}`. -/
def invoicePost : PostRec :=
  { id := "p_inv", title := "Looking for a tool to manage invoices",
    selftext := "", subreddit := "smallbusiness", score := 7, numComments := 4,
    url := "https://reddit.com/p_inv" }

/-- The confidence returned by the rule-based fallback is one of the three
policy constants, hence inside `[0,1]`. -/
theorem ruleBasedClassify_confidence_mem (post : PostRec) :
    0 ≤ (ruleBasedClassify post).confidence ∧ (ruleBasedClassify post).confidence ≤ 1 := by
  simp only [ruleBasedClassify]
  split_ifs <;> norm_num

/-- C6: every classification produced by `classify` — AI path or rule-based
fallback, even when the upstream call returns an out-of-range confidence —
has `0.0 ≤ confidence ≤ 1.0`. -/
theorem classify_confidence_clamped (available : Bool) (outcome : AiOutcome) (post : PostRec) :
    0 ≤ (classify available outcome post).confidence ∧
      (classify available outcome post).confidence ≤ 1 := by
  cases available with
  | false => simpa [classify] using ruleBasedClassify_confidence_mem post
  | true =>
    cases outcome with
    | callFailed => simpa [classify, aiClassify] using ruleBasedClassify_confidence_mem post
    | parseFailed => simpa [classify, aiClassify] using ruleBasedClassify_confidence_mem post
    | parsed intent confidence reasoning raw =>
      refine ⟨?_, ?_⟩
      · simp only [classify, aiClassify, if_true]
        exact le_min (le_max_right _ _) zero_le_one
      · simp only [classify, aiClassify, if_true]
        exact min_le_right _ _

/-- C7: the rule-based fallback checks the signal categories in the fixed
priority order hot-lead, partnership, competitor, content-idea, first match
winning, no match yielding noise, with the fixed confidences 0.6/0.6/0.6/0.5
and 0.4 for noise; and with no AI credential the scenario post
"Looking for a tool to manage invoices" classifies as hot-lead at 0.6. -/
theorem ruleBasedClassify_priority_and_scenario :
    (∀ post : PostRec,
      ((ruleBasedClassify post).intent, (ruleBasedClassify post).confidence) =
        firstRuleMatch (pyLower post.title ++ " " ++ pyLower post.selftext)) ∧
    (∀ outcome : AiOutcome,
      (classify false outcome invoicePost).intent = Intent.hotLead ∧
      (classify false outcome invoicePost).confidence = 0.6) := by
  constructor
  · intro post
    simp only [ruleBasedClassify, firstRuleMatch, ruleOrder, List.find?]
    cases h1 : hotLeadSignals.any
        (fun s => strIn s (pyLower post.title ++ " " ++ pyLower post.selftext)) <;>
      cases h2 : partnershipSignals.any
          (fun s => strIn s (pyLower post.title ++ " " ++ pyLower post.selftext)) <;>
        cases h3 : competitorSignals.any
            (fun s => strIn s (pyLower post.title ++ " " ++ pyLower post.selftext)) <;>
          cases h4 : contentSignals.any
              (fun s => strIn s (pyLower post.title ++ " " ++ pyLower post.selftext)) <;>
            simp [h1, h2, h3, h4]
  · intro outcome
    constructor
    · show (ruleBasedClassify invoicePost).intent = Intent.hotLead
      rfl
    · show (ruleBasedClassify invoicePost).confidence = 0.6
      rfl

/-- C8: the relevance score factors as
`(score + 2 × replies) × source_priority_boost(community) × intent_boost`,
with the default boost 1.0 and the intent boosts of §4.3; and the §8 scenario
post (score 10, 3 replies, no boosts) scores 16. -/
theorem scorePost_formula :
    (∀ (post : PostRec) (config : Config) (classification : Option Classification),
      scorePost post config classification =
        ((post.score : ℚ) + 2 * (post.numComments : ℚ)) *
          sourcePriorityBoostSpec config post.subreddit *
          intentBoostSpec classification) ∧
    scorePost
        { id := "p1", title := "t", selftext := "", subreddit := "x",
          score := 10, numComments := 3, url := "u" }
        { subredditPrefs := [] } none = 16 := by
  constructor
  · intro post config classification
    cases h : config.subredditPrefs.lookup post.subreddit <;>
      cases classification with
      | none => simp [scorePost, sourcePriorityBoostSpec, intentBoostSpec, h]; ring
      | some c =>
        obtain ⟨ci, cc, cr, craw⟩ := c
        cases ci <;>
          simp [scorePost, sourcePriorityBoostSpec, intentBoostSpec, h] <;> ring_nf
  · simp [scorePost]
    norm_num

/-- One step of the Python dict comprehension `{p['id']: p for p in all_posts}`
in `search_category` (`scanner.py`): an existing key keeps its position but
its mapped value is overwritten; a new key is appended at the end. -/
def dictInsert (m : List (String × PostRec)) (p : PostRec) : List (String × PostRec) :=
  if m.any (fun kv => kv.1 == p.id) then
    m.map (fun kv => if kv.1 == p.id then (kv.1, p) else kv)
  else m ++ [(p.id, p)]

/-- The deduplication line of `search_category`:
`unique_posts = list({p['id']: p for p in all_posts}.values())`. -/
def dedupById (posts : List PostRec) : List PostRec :=
  (posts.foldl dictInsert []).map Prod.snd

/-- The engagement filter of `search_category`:
`p['score'] >= min_score and p['num_comments'] >= min_comments`. -/
def meetsEngagement (minScore minComments : ℤ) (p : PostRec) : Bool :=
  decide (minScore ≤ p.score) && decide (minComments ≤ p.numComments)

/-- The post-set pipeline of `search_category` (`scanner.py`), given the
accumulated search results in search order: the engagement filter applied per
query result, then deduplication by post id over the accumulated list. -/
def searchCategoryPosts (fetched : List PostRec) (minScore minComments : ℤ) : List PostRec :=
  dedupById (fetched.filter (meetsEngagement minScore minComments))

/-- The last post with a given id in fetch order, phrased as a left fold. -/
def lastWithId (posts : List PostRec) (i : String) : Option PostRec :=
  posts.foldl (fun acc p => if p.id == i then some p else acc) none

theorem lastWithId_concat (posts : List PostRec) (p : PostRec) (i : String) :
    lastWithId (posts ++ [p]) i =
      if p.id == i then some p else lastWithId posts i := by
  simp [lastWithId, List.foldl_append]

/-- `lastWithId` is the last element of the sublist of posts carrying the id. -/
theorem lastWithId_eq_getLast? (posts : List PostRec) (i : String) :
    lastWithId posts i = (posts.filter (fun p => p.id == i)).getLast? := by
  induction posts using List.reverseRecOn with
  | nil => rfl
  | append_singleton qs p ih =>
    rw [lastWithId_concat, List.filter_append]
    by_cases h : p.id == i
    · simp [h, List.getLast?_concat]
    · simp only [List.filter_cons, List.filter_nil, h, Bool.false_eq_true, if_false,
        List.append_nil, ih]

theorem dictInsert_filter (m : List (String × PostRec)) (p : PostRec) (i : String)
    (hm : (m.filter (fun kv => kv.1 == i)).length ≤ 1) :
    (dictInsert m p).filter (fun kv => kv.1 == i) =
      if p.id == i then [(p.id, p)] else m.filter (fun kv => kv.1 == i) := by
  unfold dictInsert
  by_cases hpi : p.id = i
  · subst hpi
    rw [if_pos (beq_self_eq_true p.id)]
    by_cases hany : (m.any fun kv => kv.1 == p.id) = true
    · rw [if_pos hany]
      rw [List.filter_map (fun kv : String × PostRec => if kv.1 == p.id then (kv.1, p) else kv) m]
      have hcong :
          m.filter ((fun kv : String × PostRec => kv.1 == p.id) ∘
              (fun kv => if kv.1 == p.id then (kv.1, p) else kv)) =
            m.filter (fun kv => kv.1 == p.id) := by
        refine List.filter_congr ?_
        intro kv _
        by_cases hk : kv.1 = p.id <;> simp [hk]
      rw [hcong]
      rcases hflt : m.filter (fun kv => kv.1 == p.id) with _ | ⟨kv0, rest⟩
      · exfalso
        rcases List.any_eq_true.mp hany with ⟨kv, hkv, hkvp⟩
        have : kv ∈ m.filter (fun kv => kv.1 == p.id) := List.mem_filter.mpr ⟨hkv, hkvp⟩
        rw [hflt] at this
        exact absurd this (List.not_mem_nil kv)
      · have hlen : (kv0 :: rest).length ≤ 1 := by rw [hflt] at hm; exact hm
        have hrest : rest = [] := by
          refine List.length_eq_zero.mp ?_
          simp only [List.length_cons] at hlen
          omega
        subst hrest
        have hkv0 : kv0.1 = p.id := by
          have : kv0 ∈ m.filter (fun kv => kv.1 == p.id) := by
            rw [hflt]; exact List.mem_singleton.mpr rfl
          simpa using (List.mem_filter.mp this).2
        rw [hflt]
        simp [hkv0]
    · rw [if_neg hany]
      have hflt : m.filter (fun kv => kv.1 == p.id) = [] := by
        refine List.filter_eq_nil_iff.mpr ?_
        intro kv hkv
        intro hc
        exact hany (List.any_eq_true.mpr ⟨kv, hkv, hc⟩)
      simp [List.filter_append, hflt]
  · rw [if_neg (show ¬ ((p.id == i) = true) by simpa using hpi)]
    by_cases hany : (m.any fun kv => kv.1 == p.id) = true
    · rw [if_pos hany]
      rw [List.filter_map (fun kv : String × PostRec => if kv.1 == p.id then (kv.1, p) else kv) m]
      have hcong :
          m.filter ((fun kv : String × PostRec => kv.1 == i) ∘
              (fun kv => if kv.1 == p.id then (kv.1, p) else kv)) =
            m.filter (fun kv => kv.1 == i) := by
        refine List.filter_congr ?_
        intro kv _
        by_cases hk : kv.1 = p.id <;> simp [hk]
      rw [hcong]
      conv_rhs => rw [← List.map_id (m.filter (fun kv => kv.1 == i))]
      refine List.map_congr_left ?_
      intro kv hkv
      have hkvi : kv.1 = i := by simpa using (List.mem_filter.mp hkv).2
      have hne : ¬ kv.1 = p.id := by
        rw [hkvi]
        intro hip
        exact hpi hip.symm
      simp [hne]
    · rw [if_neg hany]
      simp [List.filter_append, hpi]

theorem foldl_dictInsert_filter (i : String) (ps : List PostRec) :
    ∀ m : List (String × PostRec), (m.filter (fun kv => kv.1 == i)).length ≤ 1 →
      (ps.foldl dictInsert m).filter (fun kv => kv.1 == i) =
        match lastWithId ps i with
        | some p => [(p.id, p)]
        | none => m.filter (fun kv => kv.1 == i) := by
  induction ps using List.reverseRecOn with
  | nil =>
    intro m _
    rfl
  | append_singleton qs p ih =>
    intro m hm
    rw [List.foldl_append, lastWithId_concat]
    have hM : ((qs.foldl dictInsert m).filter (fun kv => kv.1 == i)).length ≤ 1 := by
      rw [ih m hm]
      cases lastWithId qs i <;> simp [hm]
    simp only [List.foldl_cons, List.foldl_nil]
    rw [dictInsert_filter _ _ _ hM, ih m hm]
    by_cases hpi : p.id == i
    · simp [hpi]
    · simp only [hpi, Bool.false_eq_true, if_false]

theorem dictInsert_keys (m : List (String × PostRec)) (p : PostRec)
    (h : ∀ kv ∈ m, kv.1 = kv.2.id) :
    ∀ kv ∈ dictInsert m p, kv.1 = kv.2.id := by
  intro kv hkv
  unfold dictInsert at hkv
  by_cases hany : m.any (fun kv => kv.1 == p.id)
  · rw [if_pos hany] at hkv
    rcases List.mem_map.mp hkv with ⟨kv0, hkv0, hmap⟩
    by_cases hk : kv0.1 == p.id
    · have : kv = (kv0.1, p) := by rw [← hmap]; simp [hk]
      subst this
      simpa using hk
    · have : kv = kv0 := by rw [← hmap]; simp [hk]
      subst this
      exact h kv hkv0
  · rw [if_neg hany] at hkv
    rcases List.mem_append.mp hkv with hkv | hkv
    · exact h kv hkv
    · rcases List.mem_singleton.mp hkv with rfl
      rfl

theorem foldl_dictInsert_keys (ps : List PostRec) :
    ∀ m : List (String × PostRec), (∀ kv ∈ m, kv.1 = kv.2.id) →
      ∀ kv ∈ ps.foldl dictInsert m, kv.1 = kv.2.id := by
  induction ps with
  | nil => intro m hm; exact hm
  | cons p ps ih =>
    intro m hm
    exact ih (dictInsert m p) (dictInsert_keys m p hm)

/-- The survivors of `dedupById` that carry a given id: exactly the last
fetched record with that id (or nothing when the id never occurs). -/
theorem dedupById_filter (posts : List PostRec) (i : String) :
    (dedupById posts).filter (fun p => p.id == i) =
      ((posts.filter (fun p => p.id == i)).getLast?).toList := by
  unfold dedupById
  rw [List.filter_map Prod.snd (posts.foldl dictInsert [])]
  have hkeys : ∀ kv ∈ posts.foldl dictInsert ([] : List (String × PostRec)), kv.1 = kv.2.id :=
    foldl_dictInsert_keys posts [] (by intro kv hkv; exact absurd hkv (List.not_mem_nil kv))
  have hcong :
      (posts.foldl dictInsert []).filter ((fun p : PostRec => p.id == i) ∘ Prod.snd) =
        (posts.foldl dictInsert []).filter (fun kv => kv.1 == i) := by
    refine List.filter_congr ?_
    intro kv hkv
    simp [hkeys kv hkv]
  rw [hcong, foldl_dictInsert_filter i posts [] (by simp), ← lastWithId_eq_getLast?]
  cases lastWithId posts i <;> rfl

/-- C9 (amended): after the engagement filter, deduplication keeps at most one
record per identifier, and when several fetched posts share an identifier the
record that survives into classification and scoring is the LAST one in the
accumulated search-result order (Python dict-comprehension semantics), not the
first. -/
theorem searchCategory_dedup_keeps_last
    (fetched : List PostRec) (minScore minComments : ℤ) (i : String) :
    (searchCategoryPosts fetched minScore minComments).filter (fun p => p.id == i) =
      (((fetched.filter (meetsEngagement minScore minComments)).filter
          (fun p => p.id == i)).getLast?).toList := by
  unfold searchCategoryPosts
  exact dedupById_filter _ i

/-- The first of two qualifying fetched records sharing the id "p1". -/
def dupFirst : PostRec :=
  { id := "p1", title := "first fetch", selftext := "", subreddit := "x",
    score := 5, numComments := 3, url := "u1" }

/-- The second of two qualifying fetched records sharing the id "p1". -/
def dupSecond : PostRec :=
  { id := "p1", title := "second fetch", selftext := "", subreddit := "x",
    score := 9, numComments := 4, url := "u2" }

/-- C9 (counterexample): with two qualifying fetched posts sharing the id
"p1", the record surviving deduplication is the second occurrence, not the
first — refuting "the first occurrence wins" for the surviving record. -/
theorem searchCategory_dedup_first_occurrence_fails :
    searchCategoryPosts [dupFirst, dupSecond] 0 0 = [dupSecond] ∧
    dupFirst ≠ dupSecond ∧
    searchCategoryPosts [dupFirst, dupSecond] 0 0 ≠ [dupFirst] := by
  refine ⟨by decide, by decide, by decide⟩

/-- The draft lifecycle states (`class DraftStatus` in `draft_store.py`). -/
inductive DStatus
  | pending
  | approved
  | rejected
  | posted
  | edited
deriving DecidableEq, Repr

/-- One row of the `drafts` table (`_init_db` in `draft_store.py`), with the
surrogate key `id`, the natural key `postId` (SQL `UNIQUE(post_id)`), and the
lifecycle fields.  Timestamps are modelled by `ℕ`. -/
structure DraftRow where
  id : String
  postId : String
  postUrl : String
  postTitle : String
  subreddit : String
  content : String
  intent : String
  confidence : ℚ
  status : DStatus
  createdAt : ℕ
  postedAt : Option ℕ := none
  redditCommentId : Option String := none
deriving DecidableEq, Repr

/-- The `Draft` value `save_draft` constructs and returns (also the inserted
row in the insert branch: the INSERT writes exactly these fields, with
`posted_at` and `reddit_comment_id` NULL). -/
def mkSavedDraft (draftId postId postUrl postTitle subreddit content intent : String)
    (confidence : ℚ) (now : ℕ) : DraftRow :=
  { id := draftId, postId := postId, postUrl := postUrl, postTitle := postTitle,
    subreddit := subreddit, content := content, intent := intent,
    confidence := confidence, status := DStatus.pending, createdAt := now }

/-- `DraftStore.save_draft` (`draft_store.py`): select the existing row by
`post_id`; when present, update content/intent/confidence in place, reset the
status to pending and refresh `created_at`, keeping the existing surrogate id;
when absent, insert a fresh pending row under the freshly generated short id.
The freshly generated `uuid4` short id and the clock reading are explicit
arguments.  Returns the new table together with the `Draft` value the Python
method constructs and returns. -/
def saveDraft (rows : List DraftRow) (newId : String) (now : ℕ)
    (postId postUrl postTitle subreddit content intent : String) (confidence : ℚ) :
    List DraftRow × DraftRow :=
  match rows.find? (fun r => r.postId == postId) with
  | some existing =>
    (rows.map (fun r =>
        if r.postId == postId then
          { r with content := content, intent := intent, confidence := confidence,
                   status := DStatus.pending, createdAt := now }
        else r),
     mkSavedDraft existing.id postId postUrl postTitle subreddit content intent confidence now)
  | none =>
    (rows ++ [mkSavedDraft newId postId postUrl postTitle subreddit content intent confidence now],
     mkSavedDraft newId postId postUrl postTitle subreddit content intent confidence now)

/-- `DraftStore.get_draft`: lookup by surrogate id. -/
def getDraft (rows : List DraftRow) (draftId : String) : Option DraftRow :=
  rows.find? (fun r => r.id == draftId)

/-- `DraftStore.update_status` (`draft_store.py`): one unconditional SQL
UPDATE of status, `posted_at` (the current time exactly when the new status is
posted, NULL otherwise) and `reddit_comment_id` (the supplied value, NULL when
omitted); returns `rowcount > 0`, i.e. whether a row with the id exists. -/
def updateStatus (rows : List DraftRow) (draftId : String) (status : DStatus)
    (redditCommentId : Option String) (now : ℕ) : List DraftRow × Bool :=
  (rows.map (fun r =>
      if r.id == draftId then
        { r with status := status,
                 postedAt := if status = DStatus.posted then some now else none,
                 redditCommentId := redditCommentId }
      else r),
   rows.any (fun r => r.id == draftId))

/-- `DraftStore.update_content` (`draft_store.py`): replace the content and
set the status to edited, by surrogate id; returns `rowcount > 0`. -/
def updateContent (rows : List DraftRow) (draftId : String) (newContent : String) :
    List DraftRow × Bool :=
  (rows.map (fun r =>
      if r.id == draftId then
        { r with content := newContent, status := DStatus.edited }
      else r),
   rows.any (fun r => r.id == draftId))

/-- The `UNIQUE(post_id)` table invariant: pairwise distinct natural keys. -/
def uniquePostIds (rows : List DraftRow) : Prop :=
  rows.Pairwise (fun a b => a.postId ≠ b.postId)

instance (rows : List DraftRow) : Decidable (uniquePostIds rows) := by
  unfold uniquePostIds
  infer_instance

theorem filter_postId_eq_nil (rows : List DraftRow) (pid : String)
    (h : rows.find? (fun r => r.postId == pid) = none) :
    rows.filter (fun r => r.postId == pid) = [] := by
  refine List.filter_eq_nil_iff.mpr ?_
  intro r hr hc
  exact absurd hc (List.find?_eq_none.mp h r hr)

theorem filter_postId_eq_singleton (rows : List DraftRow) (pid : String) (r : DraftRow)
    (huniq : uniquePostIds rows) (hmem : r ∈ rows) (hr : r.postId = pid) :
    rows.filter (fun x => x.postId == pid) = [r] := by
  induction rows with
  | nil => cases hmem
  | cons hd t ih =>
    rcases List.mem_cons.mp hmem with rfl | hmem'
    · have htail : ∀ b ∈ t, r.postId ≠ b.postId := (List.pairwise_cons.mp huniq).1
      have hnil : t.filter (fun x => x.postId == pid) = [] := by
        refine List.filter_eq_nil_iff.mpr ?_
        intro x hx hc
        exact htail x hx (by rw [hr]; exact (beq_iff_eq.mp hc).symm)
      simp [List.filter_cons, hr, hnil]
    · have hhd : hd.postId ≠ r.postId :=
        (List.pairwise_cons.mp huniq).1 r hmem'
      have hne : ¬ (hd.postId == pid) = true := by
        intro hc
        exact hhd (by rw [beq_iff_eq.mp hc, ← hr])
      simp only [List.filter_cons, hne, Bool.false_eq_true, if_false]
      exact ih (List.pairwise_cons.mp huniq).2 hmem'

theorem find?_of_filter_singleton (rows : List DraftRow) (q : DraftRow → Bool) (r : DraftRow)
    (h : rows.filter q = [r]) : rows.find? q = some r := by
  induction rows with
  | nil => simp at h
  | cons hd t ih =>
    by_cases hq : q hd
    · have : hd :: t.filter q = [r] := by
        rw [← h]
        simp [List.filter_cons, hq]
      have hhd : hd = r := by
        have := congrArg List.head? this
        simpa using this
      subst hhd
      simp [List.find?_cons, hq]
    · have hrest : t.filter q = [r] := by
        rw [← h]
        simp [List.filter_cons, hq]
      rw [List.find?_cons]
      simp only [hq]
      exact ih hrest

theorem filter_map_postId (rows : List DraftRow) (f : DraftRow → DraftRow)
    (hpres : ∀ x, (f x).postId = x.postId) (pid : String) :
    (rows.map f).filter (fun x => x.postId == pid) =
      (rows.filter (fun x => x.postId == pid)).map f := by
  rw [List.filter_map f rows]
  congr 1
  refine List.filter_congr ?_
  intro x _
  simp [Function.comp, hpres x]

/-- Uniqueness of the natural key is preserved by `saveDraft`: the update
branch never touches `post_id`, and the insert branch only fires when the
`post_id` is absent. -/
theorem saveDraft_uniquePostIds (rows : List DraftRow) (newId : String) (now : ℕ)
    (postId postUrl postTitle subreddit content intent : String) (confidence : ℚ)
    (huniq : uniquePostIds rows) :
    uniquePostIds
      (saveDraft rows newId now postId postUrl postTitle subreddit content intent confidence).1 := by
  unfold saveDraft
  cases hfind : rows.find? (fun r => r.postId == postId) with
  | some existing =>
    refine (List.pairwise_map).mpr ?_
    refine huniq.imp_of_mem ?_
    intro a b _ _ hab
    by_cases ha : (a.postId == postId) = true <;>
      by_cases hb : (b.postId == postId) = true <;>
        simp [ha, hb, hab]
  | none =>
    refine (List.pairwise_append).mpr ⟨huniq, List.pairwise_singleton _ _, ?_⟩
    intro a ha b hb
    rcases List.mem_singleton.mp hb with rfl
    intro hc
    exact absurd (by simp [mkSavedDraft, hc]) (List.find?_eq_none.mp hfind a ha)

/-- The post-save table restricted to the saved natural key: exactly one row,
carrying the returned surrogate id, the latest content/intent/confidence, the
fresh timestamp and the pending status. -/
theorem saveDraft_filter_call (rows : List DraftRow) (newId : String) (now : ℕ)
    (postId postUrl postTitle subreddit content intent : String) (confidence : ℚ)
    (huniq : uniquePostIds rows) :
    ∃ r : DraftRow,
      (saveDraft rows newId now postId postUrl postTitle subreddit content intent confidence).1.filter
          (fun x => x.postId == postId) = [r] ∧
      r.id = (saveDraft rows newId now postId postUrl postTitle subreddit content intent confidence).2.id ∧
      r.postId = postId ∧ r.content = content ∧ r.intent = intent ∧
      r.confidence = confidence ∧ r.createdAt = now ∧ r.status = DStatus.pending := by
  unfold saveDraft
  cases hfind : rows.find? (fun r => r.postId == postId) with
  | some existing =>
    have hmem : existing ∈ rows := List.mem_of_find?_eq_some hfind
    have hex : existing.postId = postId := by
      simpa using List.find?_some hfind
    rw [filter_map_postId rows _ (by
      intro x
      by_cases hx : (x.postId == postId) = true <;> simp [hx]) postId]
    rw [filter_postId_eq_singleton rows postId existing huniq hmem hex]
    refine ⟨_, rfl, ?_, ?_, ?_, ?_, ?_, ?_, ?_⟩ <;> simp [hex, mkSavedDraft]
  | none =>
    rw [List.filter_append, filter_postId_eq_nil rows postId hfind]
    refine ⟨mkSavedDraft newId postId postUrl postTitle subreddit content intent confidence now,
      ?_, rfl, rfl, rfl, rfl, rfl, rfl, rfl⟩
    simp [mkSavedDraft]

/-- The argument bundle of one `save_draft` call. -/
structure SaveArgs where
  newId : String
  now : ℕ
  postId : String
  postUrl : String
  postTitle : String
  subreddit : String
  content : String
  intent : String
  confidence : ℚ
deriving DecidableEq, Repr

/-- `save_draft` applied to an argument bundle. -/
def saveDraftArgs (rows : List DraftRow) (a : SaveArgs) : List DraftRow × DraftRow :=
  saveDraft rows a.newId a.now a.postId a.postUrl a.postTitle a.subreddit a.content a.intent
    a.confidence

/-- C3: across every sequence of `save_draft` calls at most one row exists per
source-post identifier, and a second call with the same source-post id (and
possibly different content) updates the existing row in place — keeping the
first call's draft id, replacing content/intent/confidence/created-at with the
latest values and resetting the status to pending — rather than inserting a
duplicate. -/
theorem saveDraft_idempotent_per_post :
    (∀ calls : List SaveArgs,
      uniquePostIds (calls.foldl (fun rows a => (saveDraftArgs rows a).1) [])) ∧
    (∀ (rows : List DraftRow) (pid : String)
       (id1 : String) (t1 : ℕ) (u1 ti1 sr1 c1 in1 : String) (q1 : ℚ)
       (id2 : String) (t2 : ℕ) (u2 ti2 sr2 c2 in2 : String) (q2 : ℚ),
      uniquePostIds rows →
      ∃ r : DraftRow,
        (saveDraft (saveDraft rows id1 t1 pid u1 ti1 sr1 c1 in1 q1).1
            id2 t2 pid u2 ti2 sr2 c2 in2 q2).1.filter (fun x => x.postId == pid) = [r] ∧
        r.id = (saveDraft rows id1 t1 pid u1 ti1 sr1 c1 in1 q1).2.id ∧
        r.content = c2 ∧ r.intent = in2 ∧ r.confidence = q2 ∧
        r.createdAt = t2 ∧ r.status = DStatus.pending ∧
        (saveDraft (saveDraft rows id1 t1 pid u1 ti1 sr1 c1 in1 q1).1
            id2 t2 pid u2 ti2 sr2 c2 in2 q2).1.length =
          (saveDraft rows id1 t1 pid u1 ti1 sr1 c1 in1 q1).1.length) := by
  constructor
  · have hstep : ∀ (calls : List SaveArgs) (rows : List DraftRow), uniquePostIds rows →
        uniquePostIds (calls.foldl (fun rows a => (saveDraftArgs rows a).1) rows) := by
      intro calls
      induction calls with
      | nil => intro rows h; exact h
      | cons a rest ih =>
        intro rows h
        exact ih _ (saveDraft_uniquePostIds rows a.newId a.now a.postId a.postUrl a.postTitle
          a.subreddit a.content a.intent a.confidence h)
    intro calls
    exact hstep calls [] (List.Pairwise.nil)
  · intro rows pid id1 t1 u1 ti1 sr1 c1 in1 q1 id2 t2 u2 ti2 sr2 c2 in2 q2 huniq
    obtain ⟨r1, hflt1, hid1, hpid1, _, _, _, _, _⟩ :=
      saveDraft_filter_call rows id1 t1 pid u1 ti1 sr1 c1 in1 q1 huniq
    set S1 := saveDraft rows id1 t1 pid u1 ti1 sr1 c1 in1 q1 with hS1
    have hfind2 : S1.1.find? (fun x => x.postId == pid) = some r1 :=
      find?_of_filter_singleton _ _ _ hflt1
    refine ⟨{ r1 with content := c2, intent := in2, confidence := q2, status := DStatus.pending, createdAt := t2 }, ?_, ?_, rfl, rfl, rfl, rfl, rfl, ?_⟩
    · simp only [saveDraft, hfind2]
      rw [filter_map_postId _ _ (by
        intro x
        by_cases hx : (x.postId == pid) = true <;> simp [hx]) pid]
      rw [hflt1]
      simp [hpid1]
    · simpa using hid1
    · simp only [saveDraft, hfind2]
      simp
/-- Witness for C3: from the empty table, saving twice under post id "p1"
with different content leaves one row, keeping the first call's draft id
"d1", with content "c2", confidence 0.8, timestamp 2 and pending status. -/
theorem saveDraft_idempotent_per_post_witness :
    uniquePostIds ([] : List DraftRow) ∧
    ∃ r : DraftRow,
      (saveDraft (saveDraft [] "d1" 1 "p1" "u1" "t1" "s1" "c1" "i1" 0.9).1
          "d2" 2 "p1" "u2" "t2" "s2" "c2" "i2" 0.8).1.filter (fun x => x.postId == "p1") = [r] ∧
      r.id = (saveDraft [] "d1" 1 "p1" "u1" "t1" "s1" "c1" "i1" 0.9).2.id ∧
      r.content = "c2" ∧ r.intent = "i2" ∧ r.confidence = 0.8 ∧
      r.createdAt = 2 ∧ r.status = DStatus.pending ∧
      (saveDraft (saveDraft [] "d1" 1 "p1" "u1" "t1" "s1" "c1" "i1" 0.9).1
          "d2" 2 "p1" "u2" "t2" "s2" "c2" "i2" 0.8).1.length =
        (saveDraft [] "d1" 1 "p1" "u1" "t1" "s1" "c1" "i1" 0.9).1.length :=
  ⟨List.Pairwise.nil,
   saveDraft_idempotent_per_post.2 [] "p1" "d1" 1 "u1" "t1" "s1" "c1" "i1" 0.9
     "d2" 2 "u2" "t2" "s2" "c2" "i2" 0.8 List.Pairwise.nil⟩

/-- C10: `update_status` performs no transition validation — it applies any
status to a draft in any current state — unconditionally overwrites
`posted_at` (the current time exactly when the new status is posted, null
otherwise) and `reddit_comment_id` (the supplied value or null), returns true
iff a row with the id exists, and changes no other field and no other row. -/
theorem updateStatus_unconditional_frame (rows : List DraftRow) (draftId : String)
    (status : DStatus) (cid : Option String) (now : ℕ) :
    ((updateStatus rows draftId status cid now).2 = true ↔ ∃ r ∈ rows, r.id = draftId) ∧
    (updateStatus rows draftId status cid now).1.length = rows.length ∧
    (∀ (k : ℕ) (r r' : DraftRow), rows[k]? = some r →
      (updateStatus rows draftId status cid now).1[k]? = some r' →
      (r.id = draftId →
        r'.status = status ∧
        r'.postedAt = (if status = DStatus.posted then some now else none) ∧
        (status = DStatus.posted → r'.postedAt = some now) ∧
        (status ≠ DStatus.posted → r'.postedAt = none) ∧
        r'.redditCommentId = cid ∧
        r'.id = r.id ∧ r'.postId = r.postId ∧ r'.postUrl = r.postUrl ∧
        r'.postTitle = r.postTitle ∧ r'.subreddit = r.subreddit ∧
        r'.content = r.content ∧ r'.intent = r.intent ∧
        r'.confidence = r.confidence ∧ r'.createdAt = r.createdAt) ∧
      (r.id ≠ draftId → r' = r)) := by
  refine ⟨?_, ?_, ?_⟩
  · simp only [updateStatus, List.any_eq_true, beq_iff_eq]
  · simp [updateStatus]
  · intro k r r' hk hk'
    have hmap : (updateStatus rows draftId status cid now).1[k]? =
        (rows[k]?).map (fun r => if r.id == draftId then { r with status := status, postedAt := if status = DStatus.posted then some now else none, redditCommentId := cid } else r) := by
      simp [updateStatus, List.getElem?_map]
    rw [hmap, hk, Option.map_some'] at hk'
    have hfr := Option.some.inj hk'
    constructor
    · intro hr
      have hr2 : r' = { r with status := status, postedAt := if status = DStatus.posted then some now else none, redditCommentId := cid } := by
        rw [← hfr]
        simp [hr]
      subst hr2
      refine ⟨rfl, rfl, ?_, ?_, rfl, rfl, rfl, rfl, rfl, rfl, rfl, rfl, rfl, rfl⟩
      · intro hst; simp [hst]
      · intro hst; simp [hst]
    · intro hr
      rw [← hfr]
      simp [hr]

/-- A concrete stored draft used by witnesses. -/
def wRow : DraftRow :=
  { id := "d1", postId := "p1", postUrl := "https://reddit.com/p1", postTitle := "t",
    subreddit := "s", content := "draft body", intent := "hot_lead", confidence := 1,
    status := DStatus.pending, createdAt := 1 }

/-- Witness for C10: updating the single stored pending draft to posted with
comment id "c9" at time 42 succeeds and writes exactly the three fields. -/
theorem updateStatus_unconditional_frame_witness :
    (updateStatus [wRow] "d1" DStatus.posted (some "c9") 42).2 = true ∧
    ∃ r' : DraftRow,
      (updateStatus [wRow] "d1" DStatus.posted (some "c9") 42).1[0]? = some r' ∧
      r'.status = DStatus.posted ∧ r'.postedAt = some 42 ∧
      r'.redditCommentId = some "c9" ∧ r'.content = wRow.content := by
  have h := updateStatus_unconditional_frame [wRow] "d1" DStatus.posted (some "c9") 42
  have hk' : (updateStatus [wRow] "d1" DStatus.posted (some "c9") 42).1[0]? =
      some { wRow with status := DStatus.posted, postedAt := some 42, redditCommentId := some "c9" } := by
    simp [updateStatus, wRow]
  have hfields := (h.2.2 0 wRow _ rfl hk').1 rfl
  exact ⟨h.1.mpr ⟨wRow, List.mem_singleton.mpr rfl, rfl⟩,
    _, hk', hfields.1, hfields.2.2.1 rfl, hfields.2.2.2.2.1,
    hfields.2.2.2.2.2.2.2.2.2.2.1⟩

/-- The result of the Reddit posting capability `create_comment`
(`reddit_client.py`): comment id and permalink.  A failed call is an
`Except.error` carrying the raised exception's message text (the internal rate
gate raises `ValueError` with a "Must wait N more seconds ..." message; other
failures carry other texts). -/
structure CommentResult where
  commentId : String
  permalink : String
deriving DecidableEq, Repr

/-- The user-visible outcome of one callback dispatch, as distinguished by the
messages `approval_bot.py` sends. -/
inductive BotReply
  | answerOnly (text : String)
  | postedOk
  | rateLimited (err : String)
  | postFailed (err : String)
  | editPrompt
  | skipped
deriving DecidableEq, Repr

/-- The observable effects of one callback dispatch: the draft table, the
pending-edit map (conversation id to awaited draft id), the `create_comment`
invocations made against the Reddit client (post id and body of each call, in
order), and the reply. -/
structure CallbackEffects where
  rows : List DraftRow
  pendingEdits : String → Option String
  redditCalls : List (String × String)
  reply : BotReply

/-- `ApprovalBot._handle_post` (`approval_bot.py`): unconditionally invoke
`create_comment` with the draft's post id and current content — there is no
status check; on success update the status to posted with the returned comment
id; on failure perform no store write and report a rate limit exactly when the
lower-cased error text contains "wait" or "rate". -/
def handlePost (rows : List DraftRow) (pe : String → Option String) (draft : DraftRow)
    (outcome : Except String CommentResult) (now : ℕ) : CallbackEffects :=
  match outcome with
  | Except.ok result =>
    { rows := (updateStatus rows draft.id DStatus.posted (some result.commentId) now).1,
      pendingEdits := pe,
      redditCalls := [(draft.postId, draft.content)],
      reply := BotReply.postedOk }
  | Except.error errMsg =>
    { rows := rows,
      pendingEdits := pe,
      redditCalls := [(draft.postId, draft.content)],
      reply :=
        if strIn "wait" (pyLower errMsg) || strIn "rate" (pyLower errMsg) then
          BotReply.rateLimited errMsg
        else BotReply.postFailed errMsg }

/-- `ApprovalBot._handle_edit_request`: record the pending-edit marker for the
bot's configured chat and echo the current content; no store change. -/
def handleEditRequest (rows : List DraftRow) (pe : String → Option String)
    (botChatId : String) (draft : DraftRow) : CallbackEffects :=
  { rows := rows,
    pendingEdits := fun c => if c == botChatId then some draft.id else pe c,
    redditCalls := [],
    reply := BotReply.editPrompt }

/-- `ApprovalBot._handle_skip`: transition to rejected unconditionally, no
posting side effect. -/
def handleSkip (rows : List DraftRow) (pe : String → Option String) (draft : DraftRow)
    (now : ℕ) : CallbackEffects :=
  { rows := (updateStatus rows draft.id DStatus.rejected none now).1,
    pendingEdits := pe,
    redditCalls := [],
    reply := BotReply.skipped }

/-- `ApprovalBot.handle_callback`: parse `action:draft_id`; payloads without a
colon and unknown draft ids are acknowledged without any side effect;
otherwise dispatch on the action name. -/
def handleCallback (rows : List DraftRow) (pe : String → Option String) (botChatId : String)
    (data : String) (outcome : Except String CommentResult) (now : ℕ) : CallbackEffects :=
  match splitAction data with
  | none =>
    { rows := rows, pendingEdits := pe, redditCalls := [],
      reply := BotReply.answerOnly "Invalid action" }
  | some (action, draftId) =>
    match getDraft rows draftId with
    | none =>
      { rows := rows, pendingEdits := pe, redditCalls := [],
        reply := BotReply.answerOnly "Draft not found or expired" }
    | some draft =>
      if action == "post" then handlePost rows pe draft outcome now
      else if action == "edit" then handleEditRequest rows pe botChatId draft
      else if action == "skip" then handleSkip rows pe draft now
      else
        { rows := rows, pendingEdits := pe, redditCalls := [],
          reply := BotReply.answerOnly ("Unknown action: " ++ action) }

/-- The user-visible outcome of one free-text message dispatch. -/
inductive MessageReply
  | silent
  | cancelled
  | editedPosted
  | editPostFailed (err : String)
deriving DecidableEq, Repr

/-- The observable effects of one free-text message dispatch. -/
structure MessageEffects where
  rows : List DraftRow
  pendingEdits : String → Option String
  redditCalls : List (String × String)
  reply : MessageReply

/-- `ApprovalBot.handle_message` (`approval_bot.py`): with a pending-edit
marker for the chat, a trimmed case-folded "/cancel" deletes the marker and
changes nothing else; any other text updates the draft content via
`update_content` (status becomes edited) and immediately attempts to post the
new text, marking posted on success; the marker is deleted regardless of the
posting outcome (and also when the awaited draft no longer exists).  Without a
marker the handler does nothing. -/
def handleMessage (rows : List DraftRow) (pe : String → Option String)
    (chatId text : String) (outcome : Except String CommentResult) (now : ℕ) :
    MessageEffects :=
  match pe chatId with
  | none =>
    { rows := rows, pendingEdits := pe, redditCalls := [], reply := MessageReply.silent }
  | some draftId =>
    if pyLower (pyStrip text) == "/cancel" then
      { rows := rows, pendingEdits := fun c => if c == chatId then none else pe c,
        redditCalls := [], reply := MessageReply.cancelled }
    else
      match getDraft rows draftId with
      | none =>
        { rows := rows, pendingEdits := fun c => if c == chatId then none else pe c,
          redditCalls := [], reply := MessageReply.silent }
      | some draft =>
        match outcome with
        | Except.ok result =>
          { rows := (updateStatus (updateContent rows draftId text).1 draftId
              DStatus.posted (some result.commentId) now).1,
            pendingEdits := fun c => if c == chatId then none else pe c,
            redditCalls := [(draft.postId, text)],
            reply := MessageReply.editedPosted }
        | Except.error errMsg =>
          { rows := (updateContent rows draftId text).1,
            pendingEdits := fun c => if c == chatId then none else pe c,
            redditCalls := [(draft.postId, text)],
            reply := MessageReply.editPostFailed errMsg }

theorem getDraft_map (rows : List DraftRow) (f : DraftRow → DraftRow)
    (hpres : ∀ x, (f x).id = x.id) (did : String) :
    getDraft (rows.map f) did = (getDraft rows did).map f := by
  unfold getDraft
  induction rows with
  | nil => rfl
  | cons hd t ih =>
    simp only [List.map_cons, List.find?_cons]
    cases hq : hd.id == did
    · have hfq : ((f hd).id == did) = false := by rw [hpres hd]; exact hq
      simp only [hfq, hq]
      exact ih
    · have hfq : ((f hd).id == did) = true := by rw [hpres hd]; exact hq
      simp [hfq, hq]

/-- The already-posted stored draft of the C2 failing input. -/
def postedRow : DraftRow :=
  { id := "d1", postId := "p1", postUrl := "https://reddit.com/p1", postTitle := "t",
    subreddit := "s", content := "draft body", intent := "hot_lead", confidence := 1,
    status := DStatus.posted, createdAt := 1, postedAt := some 5,
    redditCommentId := some "c1" }

/-- C2 (refuted at the failing input): dispatching `post:d1` against a draft
already in the terminal posted state invokes the posting capability again
(`_handle_post` has no status check) and rewrites the draft's posted_at and
reddit_comment_id — the comment is re-submitted, not rejected or no-op. -/
theorem post_event_on_posted_draft_reposts :
    (handleCallback [postedRow] (fun _ => none) "chat1" "post:d1"
        (Except.ok { commentId := "c2", permalink := "pl2" }) 10).redditCalls =
      [("p1", "draft body")] ∧
    (handleCallback [postedRow] (fun _ => none) "chat1" "post:d1"
        (Except.ok { commentId := "c2", permalink := "pl2" }) 10).rows =
      [{ postedRow with postedAt := some 10, redditCommentId := some "c2" }] ∧
    (handleCallback [postedRow] (fun _ => none) "chat1" "post:d1"
        (Except.ok { commentId := "c2", permalink := "pl2" }) 10).rows ≠ [postedRow] :=
  ⟨by decide, by decide, by decide⟩

/-- C4: when the posting call fails during a `post:` dispatch on a pending
draft, no store write happens — the draft stays pending — and the failure is
surfaced as a rate limit exactly when the lower-cased error text contains
"wait" or "rate", and as an ordinary failure otherwise. -/
theorem handlePost_failure_keeps_pending (rows : List DraftRow) (pe : String → Option String)
    (draft : DraftRow) (errMsg : String) (now : ℕ)
    (_hpending : draft.status = DStatus.pending) :
    (handlePost rows pe draft (Except.error errMsg) now).rows = rows ∧
    ((handlePost rows pe draft (Except.error errMsg) now).reply = BotReply.rateLimited errMsg ↔
      (strIn "wait" (pyLower errMsg) || strIn "rate" (pyLower errMsg)) = true) ∧
    ((handlePost rows pe draft (Except.error errMsg) now).reply = BotReply.postFailed errMsg ↔
      (strIn "wait" (pyLower errMsg) || strIn "rate" (pyLower errMsg)) = false) ∧
    (handlePost rows pe draft (Except.error errMsg) now).redditCalls =
      [(draft.postId, draft.content)] := by
  refine ⟨rfl, ?_, ?_, rfl⟩ <;>
    by_cases hc : (strIn "wait" (pyLower errMsg) || strIn "rate" (pyLower errMsg)) = true <;>
      simp [handlePost, hc]

/-- Witness for C4: a pending draft whose posting attempt fails with the rate
gate's own message text is left in the store unchanged and reported as rate
limited. -/
theorem handlePost_failure_keeps_pending_witness :
    wRow.status = DStatus.pending ∧
    (handlePost [wRow] (fun _ => none) wRow
        (Except.error "Must wait 30 more seconds before commenting") 7).rows = [wRow] ∧
    (handlePost [wRow] (fun _ => none) wRow
        (Except.error "Must wait 30 more seconds before commenting") 7).reply =
      BotReply.rateLimited "Must wait 30 more seconds before commenting" := by
  have h := handlePost_failure_keeps_pending [wRow] (fun _ => none) wRow
    "Must wait 30 more seconds before commenting" 7 rfl
  exact ⟨rfl, h.1, h.2.1.mpr (by decide)⟩

/-- C5: with a pending-edit marker mapping the conversation to a draft that is
present in the store: a trimmed case-folded "/cancel" clears the marker and
leaves the store untouched; any other text replaces the draft's content via
`update_content` and a post of the new text is attempted immediately, leaving
the content equal to the new text with status posted on success and edited on
failure; and the marker is cleared regardless of the posting outcome. -/
theorem handleMessage_edit_flow (rows : List DraftRow) (pe : String → Option String)
    (chatId text : String) (outcome : Except String CommentResult) (now : ℕ)
    (draftId : String) (draft : DraftRow)
    (hpe : pe chatId = some draftId)
    (hdraft : getDraft rows draftId = some draft) :
    ((handleMessage rows pe chatId text outcome now).pendingEdits chatId = none) ∧
    (pyLower (pyStrip text) = "/cancel" →
      (handleMessage rows pe chatId text outcome now).rows = rows ∧
      (handleMessage rows pe chatId text outcome now).redditCalls = []) ∧
    (pyLower (pyStrip text) ≠ "/cancel" →
      (handleMessage rows pe chatId text outcome now).redditCalls = [(draft.postId, text)] ∧
      ∃ r : DraftRow,
        getDraft (handleMessage rows pe chatId text outcome now).rows draftId = some r ∧
        r.content = text ∧
        r.status = (match outcome with
                    | Except.ok _ => DStatus.posted
                    | Except.error _ => DStatus.edited)) := by
  have hid : draft.id = draftId := by
    have hfind : rows.find? (fun r => r.id == draftId) = some draft := hdraft
    have hb := List.find?_some hfind
    simpa using hb
  by_cases hc : (pyLower (pyStrip text) == "/cancel") = true
  · refine ⟨?_, ?_, ?_⟩
    · simp [handleMessage, hpe, hc]
    · intro _
      constructor <;> simp [handleMessage, hpe, hc]
    · intro hne
      exact absurd (beq_iff_eq.mp hc) hne
  · have hres : handleMessage rows pe chatId text outcome now =
        match outcome with
        | Except.ok result =>
          { rows := (updateStatus (updateContent rows draftId text).1 draftId
              DStatus.posted (some result.commentId) now).1,
            pendingEdits := fun c => if c == chatId then none else pe c,
            redditCalls := [(draft.postId, text)],
            reply := MessageReply.editedPosted }
        | Except.error errMsg =>
          { rows := (updateContent rows draftId text).1,
            pendingEdits := fun c => if c == chatId then none else pe c,
            redditCalls := [(draft.postId, text)],
            reply := MessageReply.editPostFailed errMsg } := by
      simp only [handleMessage, hpe, hc, Bool.false_eq_true, if_false, hdraft]
    have hcontent :
        getDraft (updateContent rows draftId text).1 draftId =
          some { draft with content := text, status := DStatus.edited } := by
      have hpres : ∀ x : DraftRow,
          ((fun r => if r.id == draftId then
              { r with content := text, status := DStatus.edited } else r) x).id = x.id := by
        intro x
        by_cases hx : (x.id == draftId) = true <;> simp [hx]
      unfold updateContent
      rw [getDraft_map rows _ hpres draftId, hdraft]
      simp [hid]
    refine ⟨?_, ?_, ?_⟩
    · rw [hres]
      cases outcome <;> simp
    · intro hcan
      exact absurd hcan (by simpa using hc)
    · intro _
      rw [hres]
      cases outcome with
      | error e =>
        refine ⟨rfl, { draft with content := text, status := DStatus.edited }, ?_, rfl, rfl⟩
        exact hcontent
      | ok result =>
        refine ⟨rfl, ?_⟩
        have hpres2 : ∀ x : DraftRow,
            ((fun r => if r.id == draftId then
                { r with status := DStatus.posted,
                         postedAt := if DStatus.posted = DStatus.posted then some now else none,
                         redditCommentId := some result.commentId } else r) x).id = x.id := by
          intro x
          by_cases hx : (x.id == draftId) = true <;> simp [hx]
        refine ⟨{ draft with content := text, status := DStatus.posted, postedAt := some now, redditCommentId := some result.commentId }, ?_, rfl, rfl⟩
        show getDraft (updateStatus (updateContent rows draftId text).1 draftId
          DStatus.posted (some result.commentId) now).1 draftId = _
        unfold updateStatus
        rw [getDraft_map _ _ hpres2 draftId, hcontent]
        simp [hid]
/-- Witness for C5: chat "c1" holds a pending-edit marker for draft "d1"; the
text "new body" replaces the content, the post succeeds, the draft ends posted
with the new text, and the marker is gone. -/
theorem handleMessage_edit_flow_witness :
    (fun c => if c == "c1" then some "d1" else none) "c1" = some "d1" ∧
    getDraft [wRow] "d1" = some wRow ∧
    ((handleMessage [wRow] (fun c => if c == "c1" then some "d1" else none) "c1" "new body"
        (Except.ok { commentId := "c7", permalink := "pl" }) 9).pendingEdits "c1" = none) ∧
    (handleMessage [wRow] (fun c => if c == "c1" then some "d1" else none) "c1" "new body"
        (Except.ok { commentId := "c7", permalink := "pl" }) 9).redditCalls =
      [("p1", "new body")] ∧
    ∃ r : DraftRow,
      getDraft (handleMessage [wRow] (fun c => if c == "c1" then some "d1" else none) "c1"
          "new body" (Except.ok { commentId := "c7", permalink := "pl" }) 9).rows "d1" =
        some r ∧
      r.content = "new body" ∧ r.status = DStatus.posted := by
  have h := handleMessage_edit_flow [wRow] (fun c => if c == "c1" then some "d1" else none)
    "c1" "new body" (Except.ok { commentId := "c7", permalink := "pl" }) 9 "d1" wRow rfl
    (by decide)
  have hne : pyLower (pyStrip "new body") ≠ "/cancel" := by decide
  obtain ⟨hcalls, r, hr, hrc, hrs⟩ := h.2.2 hne
  exact ⟨rfl, by decide, h.1, hcalls, r, hr, hrc, hrs⟩

/-- The method names the source `DraftStore` class defines
(`draft_store.py`). -/
def draftStoreMethods : List String :=
  ["__init__", "_init_db", "save_draft", "get_draft", "get_pending_drafts",
   "update_status", "update_content", "get_stats", "cleanup_old_drafts",
   "_row_to_draft"]

/-- A Python runtime error observable in the orchestrator's draft-persistence
step. -/
inductive PyError
  | attributeError (name : String)
deriving DecidableEq, Repr

/-- Modelled from the spec: `is_post_processed(source_post_id)` — "true if a
draft for that source post already exists in a non-pending, non-edited
terminal-ish sense" (§4.5).  The method is absent from the source `DraftStore`
class; this definition follows the spec's words and is reached only in the
branch in which the store does provide the method. -/
def isPostProcessedSpec (rows : List DraftRow) (postId : String) : Bool :=
  rows.any (fun r => r.postId == postId &&
    !(r.status == DStatus.pending) && !(r.status == DStatus.edited))

/-- The loop body of `send_drafts_for_approval` (`scanner.py`, lines 220-237)
for one generated draft, with Python attribute resolution made explicit: the
call `store.is_post_processed(post_id)` first resolves the name on the
`DraftStore` class and raises `AttributeError` when it is absent; only then
does the skip-or-save logic run (the returned flag records whether the post
was skipped as already processed). -/
def sendDraftsStep (rows : List DraftRow) (newId : String) (now : ℕ)
    (postId postUrl postTitle subreddit content intent : String) (confidence : ℚ) :
    Except PyError (List DraftRow × Bool) :=
  if draftStoreMethods.contains "is_post_processed" then
    if isPostProcessedSpec rows postId then Except.ok (rows, true)
    else
      Except.ok ((saveDraft rows newId now postId postUrl postTitle subreddit content
        intent confidence).1, false)
  else Except.error (PyError.attributeError "is_post_processed")

/-- C1 (refuted): `DraftStore` defines no `is_post_processed` method, so the
orchestrator's draft-persistence step raises `AttributeError` for every
generated draft instead of skipping already-processed posts — evaluated also
at a concrete draft against the empty store. -/
theorem is_post_processed_missing :
    draftStoreMethods.contains "is_post_processed" = false ∧
    (∀ (rows : List DraftRow) (newId : String) (now : ℕ)
       (postId postUrl postTitle subreddit content intent : String) (confidence : ℚ),
      sendDraftsStep rows newId now postId postUrl postTitle subreddit content intent
          confidence =
        Except.error (PyError.attributeError "is_post_processed")) ∧
    sendDraftsStep [] "d1" 1 "p1" "u" "t" "s" "body" "hot_lead" 1 =
      Except.error (PyError.attributeError "is_post_processed") := by
  refine ⟨by decide, ?_, rfl⟩
  intro rows newId now postId postUrl postTitle subreddit content intent confidence
  unfold sendDraftsStep
  rw [if_neg (by decide : ¬ (draftStoreMethods.contains "is_post_processed" = true))]

end RedditRadar
